import Mathlib

/-!
Shallow embedding of the `rerun_except` crate (src/src/lib.rs).

The crate exposes one public function, `rerun_except(globs)`, which

  1. validates the caller-supplied globs with `check_globs` (rejecting any
     glob whose first character is the negation marker),
  2. reads the `CARGO_MANIFEST_DIR` environment variable, unwrapping it
     (a panic when absent),
  3. registers each glob `g` with the `ignore` crate matching engine as the
     override rule obtained by prepending the negation marker to `g`,
  4. walks the manifest directory, filtering the walker results to the
     successful ones, skipping directories, skipping paths without a
     lossless string form, skipping the root path itself, and printing a
     `cargo:rerun-if-changed=` line for each surviving path.

The external collaborators (the environment variable, the glob compiler
of the `ignore` crate, and the directory walker) are parameters of the
embedding; the control flow and data flow of the source are translated
directly.
-/

/-- The check `g.starts_with` applied to the negation marker, as in
`check_globs` (src/src/lib.rs line 99): true exactly when the first
character of `g` is the marker character. -/
def starts_with_bang (g : String) : Bool :=
  match g.data with
  | [] => false
  | c :: _ => c = '!'

/-- The distinct failure sources of `rerun_except`.  The Rust code boxes
every failure into one error type; the constructors here record which
fallible operation produced the failure: `invalidPattern` from
`check_globs`, `invalidOverride` from `OverrideBuilder.add` or
`OverrideBuilder.build`, and `walkEntry` from the loop body question-mark
operator on a walker result (src line 81). -/
inductive RerunError where
  | invalidPattern
  | invalidOverride
  | walkEntry
  deriving DecidableEq, Repr

/-- `check_globs` (src/src/lib.rs lines 97 to 104): iterate over the glob
list; on the first glob whose first character is the negation marker,
return the error at once; otherwise succeed. -/
def check_globs : List String → Except RerunError Unit
  | [] => .ok ()
  | g :: gs => if starts_with_bang g then .error .invalidPattern else check_globs gs

/-- Instrumentation of the `check_globs` loop: how many globs the loop
inspects before returning.  Each iteration inspects one glob; an early
`return Err` ends the loop after the glob that triggered it. -/
def check_globs_examined : List String → Nat
  | [] => 0
  | g :: gs => if starts_with_bang g then 1 else 1 + check_globs_examined gs

/-- One result entry yielded by the directory walker, holding exactly the
data the source reads from it: `path.is_dir()`, `path.to_str()` (none when
the path has no lossless string form), and, for reasoning about the
walker itself, the name components of the path below the root. -/
structure DirEntry where
  is_dir : Bool
  to_str : Option String
  components : List String
  deriving DecidableEq, Repr

/-- The `x.is_ok()` predicate used by the `filter` on the walker iterator
(src/src/lib.rs line 79). -/
def result_is_ok : Except String DirEntry → Bool
  | .ok _ => true
  | .error _ => false

/-- The body of the walk loop (src/src/lib.rs lines 76 to 92), processing
the already-filtered walker results in order.  Each element is unwrapped
with the question-mark operator (an error aborts the whole loop),
directories are skipped, paths without a string form are skipped, the
root path is skipped, and every surviving path emits a
`cargo:rerun-if-changed=` line.  Returns the loop outcome together with
the emitted lines. -/
def walk_loop (mdir : String) : List (Except String DirEntry) → Except RerunError Unit × List String
  | [] => (.ok (), [])
  | .error _ :: _ => (.error .walkEntry, [])
  | .ok ent :: rest =>
    if ent.is_dir then walk_loop mdir rest
    else
      match ent.to_str with
      | none => walk_loop mdir rest
      | some s =>
        if s = mdir then walk_loop mdir rest
        else
          let r := walk_loop mdir rest
          (r.1, ("cargo:rerun-if-changed=" ++ s) :: r.2)

/-- The loop `for g in globs { overb.add(&format!("!{}", g))?; }`
(src/src/lib.rs lines 73 to 75): each glob is registered with the
negation marker prepended; the first glob the engine cannot compile
aborts the loop with an error.  `compile_ok` is the glob compiler of the
`ignore` crate (an external collaborator), true on the rule strings it
accepts.  On success, returns the list of registered rule strings in
order. -/
def add_overrides (compile_ok : String → Bool) : List String → Except RerunError (List String)
  | [] => .ok []
  | g :: gs =>
    if compile_ok ("!" ++ g) then
      match add_overrides compile_ok gs with
      | .ok rest => .ok (("!" ++ g) :: rest)
      | .error e => .error e
    else .error .invalidOverride

instance {ε α : Type} [DecidableEq ε] [DecidableEq α] :
    DecidableEq (Except ε α) := fun a b =>
  match a, b with
  | .ok x, .ok y =>
    if h : x = y then isTrue (by rw [h]) else isFalse (by simp [h])
  | .ok _, .error _ => isFalse (by simp)
  | .error _, .ok _ => isFalse (by simp)
  | .error e, .error f =>
    if h : e = f then isTrue (by rw [h]) else isFalse (by simp [h])

/-- The observable outcome of one call of `rerun_except`: a panic (from
the `unwrap` of the environment lookup), or completion with the returned
`Result` and the list of lines printed to standard output. -/
inductive RunResult where
  | panicked
  | completed (res : Except RerunError Unit) (emitted : List String)
  deriving DecidableEq, Repr

/-- `rerun_except` (src/src/lib.rs lines 68 to 95).  Parameters model the
external collaborators: `cargo_manifest_dir` is the value of the
`CARGO_MANIFEST_DIR` environment variable (none when unset or not
Unicode), `compile_ok` says which rule strings `OverrideBuilder.add`
accepts, `build_ok` says whether `OverrideBuilder.build` succeeds on the
registered rules, and `walk` gives the walker results for a root and a
rule list.  The control flow follows the source exactly: validate,
unwrap the environment variable, register the negated rules, build the
override set, then run the walk loop on the filtered walker results. -/
def rerun_except (cargo_manifest_dir : Option String)
    (compile_ok : String → Bool) (build_ok : List String → Bool)
    (walk : String → List String → List (Except String DirEntry))
    (globs : List String) : RunResult :=
  match check_globs globs with
  | .error e => .completed (.error e) []
  | .ok _ =>
    match cargo_manifest_dir with
    | none => .panicked
    | some mdir =>
      match add_overrides compile_ok globs with
      | .error e => .completed (.error e) []
      | .ok rules =>
        if build_ok rules then
          let r := walk_loop mdir ((walk mdir rules).filter result_is_ok)
          .completed r.1 r.2
        else .completed (.error .invalidOverride) []

/-- First character test for the hidden-entry convention: true when the
name component begins with a dot. -/
def starts_with_dot (c : String) : Bool :=
  match c.data with
  | [] => false
  | ch :: _ => ch = '.'

/-- Modelled from the spec: the default hidden-entry filtering of the
directory walker (a capability of the external `ignore` crate, which
src/src/lib.rs builds with its defaults and never disables).  A walker
has this property when no successful result it yields has a name
component beginning with a dot; entries beneath hidden directories are
never yielded because the walker does not descend into them. -/
def hidden_filtering
    (walk : String → List String → List (Except String DirEntry)) : Prop :=
  ∀ mdir rules ent, Except.ok ent ∈ walk mdir rules →
    ∀ c ∈ ent.components, starts_with_dot c = false

/-! ## Helper lemmas -/

/-- `check_globs` succeeds exactly when no glob starts with the negation
marker. -/
theorem check_globs_ok_iff (globs : List String) :
    check_globs globs = .ok () ↔ ∀ g ∈ globs, starts_with_bang g = false := by
  induction globs with
  | nil => simp [check_globs]
  | cons g gs ih =>
    cases hg : starts_with_bang g with
    | true =>
      simp only [check_globs, hg, if_true]
      constructor
      · intro h; exact absurd h (by simp)
      · intro h
        have := h g (List.mem_cons_self _ _)
        rw [hg] at this
        exact absurd this (by simp)
    | false =>
      simp only [check_globs, hg, Bool.false_eq_true, if_false, ih, List.mem_cons]
      constructor
      · intro h x hx
        rcases hx with rfl | hx
        · exact hg
        · exact h x hx
      · intro h x hx
        exact h x (Or.inr hx)

/-- When `check_globs` fails, the error is `invalidPattern`. -/
theorem check_globs_error (globs : List String)
    (h : ¬ check_globs globs = .ok ()) :
    check_globs globs = .error .invalidPattern := by
  induction globs with
  | nil => simp [check_globs] at h
  | cons g gs ih =>
    by_cases hg : starts_with_bang g
    · simp [check_globs, hg]
    · simp only [check_globs, hg, if_false] at h ⊢
      simp only [Bool.false_eq_true, if_false]
      exact ih h

/-- When `add_overrides` succeeds, the registered rules are exactly the
globs each with the negation marker prepended. -/
theorem add_overrides_ok_eq (compile_ok : String → Bool) (globs rules : List String)
    (h : add_overrides compile_ok globs = .ok rules) :
    rules = globs.map (fun g => "!" ++ g) := by
  induction globs generalizing rules with
  | nil =>
    simp [add_overrides] at h
    subst h
    simp
  | cons g gs ih =>
    simp only [add_overrides] at h
    by_cases hc : compile_ok ("!" ++ g)
    · simp only [hc, if_true] at h
      cases hrest : add_overrides compile_ok gs with
      | ok rest =>
        rw [hrest] at h
        simp only [Except.ok.injEq] at h
        simp [h.symm, List.map, ih rest hrest]
      | error e => rw [hrest] at h; simp at h
    · simp [hc] at h

/-- When every negated glob compiles, `add_overrides` succeeds with the
negated rule list. -/
theorem add_overrides_all_ok (compile_ok : String → Bool) (globs : List String)
    (h : ∀ g ∈ globs, compile_ok ("!" ++ g) = true) :
    add_overrides compile_ok globs = .ok (globs.map (fun g => "!" ++ g)) := by
  induction globs with
  | nil => simp [add_overrides]
  | cons g gs ih =>
    have hg := h g (by simp)
    have hgs := ih (fun x hx => h x (List.mem_cons_of_mem _ hx))
    simp [add_overrides, hg, hgs]

/-- On a list free of error results, the walk loop completes
successfully. -/
theorem walk_loop_ok (mdir : String) (l : List (Except String DirEntry))
    (h : ∀ e ∈ l, result_is_ok e = true) :
    (walk_loop mdir l).1 = .ok () := by
  induction l with
  | nil => simp [walk_loop]
  | cons e rest ih =>
    have hrest := ih (fun x hx => h x (List.mem_cons_of_mem _ hx))
    cases e with
    | error msg => have := h _ (List.mem_cons_self _ _); simp [result_is_ok] at this
    | ok ent =>
      by_cases hd : ent.is_dir
      · simp [walk_loop, hd, hrest]
      · cases hs : ent.to_str with
        | none => simp [walk_loop, hd, hs, hrest]
        | some s =>
          by_cases hm : s = mdir
          · simp [walk_loop, hd, hs, hm, hrest]
          · simp [walk_loop, hd, hs, hm, hrest]

/-- Every line the walk loop emits comes from a successful entry of the
processed list that is not a directory, has a string form distinct from
the root, and yields the line by prefixing the directive. -/
theorem walk_loop_mem (mdir : String) (l : List (Except String DirEntry))
    (line : String) (h : line ∈ (walk_loop mdir l).2) :
    ∃ ent, Except.ok ent ∈ l ∧ ent.is_dir = false ∧
      ∃ s, ent.to_str = some s ∧ s ≠ mdir ∧
        line = "cargo:rerun-if-changed=" ++ s := by
  induction l with
  | nil => simp [walk_loop] at h
  | cons e rest ih =>
    cases e with
    | error msg => simp [walk_loop] at h
    | ok ent =>
      by_cases hd : ent.is_dir
      · simp only [walk_loop, hd, if_true] at h
        obtain ⟨w, hw⟩ := ih h
        exact ⟨w, List.mem_cons_of_mem _ hw.1, hw.2⟩
      · cases hs : ent.to_str with
        | none =>
          simp only [walk_loop, hd, if_false, hs] at h
          obtain ⟨w, hw⟩ := ih h
          exact ⟨w, List.mem_cons_of_mem _ hw.1, hw.2⟩
        | some s =>
          by_cases hm : s = mdir
          · simp only [walk_loop, hd, if_false, hs, hm, if_true] at h
            obtain ⟨w, hw⟩ := ih h
            exact ⟨w, List.mem_cons_of_mem _ hw.1, hw.2⟩
          · simp only [walk_loop, hd, if_false, hs, hm] at h
            rcases List.mem_cons.mp h with hline | hline
            · exact ⟨ent, List.mem_cons_self _ _, Bool.not_eq_true _ ▸ hd, s, hs, hm, hline⟩
            · obtain ⟨w, hw⟩ := ih hline
              exact ⟨w, List.mem_cons_of_mem _ hw.1, hw.2⟩

/-- A glob starting with the negation marker makes `rerun_except` fail
with `invalidPattern` and no output, for every environment, compiler,
builder and walker. -/
theorem rerun_except_invalid (globs : List String)
    (h : ∃ g ∈ globs, starts_with_bang g = true)
    (env : Option String) (compile_ok : String → Bool)
    (build_ok : List String → Bool)
    (walk : String → List String → List (Except String DirEntry)) :
    rerun_except env compile_ok build_ok walk globs =
      .completed (.error .invalidPattern) [] := by
  obtain ⟨g, hg, hbang⟩ := h
  have hne : ¬ check_globs globs = .ok () := by
    rw [check_globs_ok_iff]
    intro hall
    rw [hall g hg] at hbang
    exact absurd hbang (by simp)
  have herr := check_globs_error globs hne
  simp [rerun_except, herr]

/-! ## Claim theorems -/

/-- C1: pattern validation succeeds if and only if no input glob begins
with the negation marker, and when at least one glob does, the whole call
of `rerun_except` fails with the `invalidPattern` error, for every
environment, glob compiler and walker. -/
theorem C1_validation_iff (globs : List String) :
    (check_globs globs = .ok () ↔ ∀ g ∈ globs, starts_with_bang g = false)
    ∧ ((∃ g ∈ globs, starts_with_bang g = true) →
      ∀ env compile_ok build_ok walk,
        rerun_except env compile_ok build_ok walk globs =
          .completed (.error .invalidPattern) []) :=
  ⟨check_globs_ok_iff globs, fun h => rerun_except_invalid globs h⟩

/-- Witness for C1 at concrete inputs: the list with the single glob "a"
validates, and the list with the single glob "!a" makes the whole call
fail with `invalidPattern`. -/
theorem C1_validation_iff_witness :
    check_globs ["a"] = .ok () ∧
    rerun_except (some "/r") (fun _ => true) (fun _ => true) (fun _ _ => []) ["!a"] =
      .completed (.error .invalidPattern) [] :=
  ⟨(C1_validation_iff ["a"]).1.mpr (by decide),
    (C1_validation_iff ["!a"]).2 ⟨"!a", by simp, by decide⟩
      (some "/r") (fun _ => true) (fun _ => true) (fun _ _ => [])⟩

/-- C6 counterexample: the validator does not examine every pattern of
every list; on the list with the globs "!a" and "b" the loop stops at the
first glob, examining one of the two patterns. -/
theorem C6_examined_counterexample :
    ¬ check_globs_examined ["!a", "b"] = (["!a", "b"] : List String).length := by
  decide

/-- C6 amended: on a list in which no glob begins with the negation
marker the validator examines every pattern; on a list with such a glob
it stops at the first one (fail-fast) and the whole call is rejected with
`invalidPattern` and no output before any walk, so the walk never runs
on part of the tree for such a list. -/
theorem C6_amended_failfast (globs : List String) :
    ((∀ g ∈ globs, starts_with_bang g = false) →
      check_globs_examined globs = globs.length)
    ∧ ((∃ g ∈ globs, starts_with_bang g = true) →
      ∀ env compile_ok build_ok walk,
        rerun_except env compile_ok build_ok walk globs =
          .completed (.error .invalidPattern) []) := by
  constructor
  · intro h
    induction globs with
    | nil => simp [check_globs_examined]
    | cons g gs ih =>
      have hg := h g (List.mem_cons_self _ _)
      have := ih (fun x hx => h x (List.mem_cons_of_mem _ hx))
      simp [check_globs_examined, hg, this, Nat.add_comm]
  · exact fun h => rerun_except_invalid globs h

/-- Witness for C6 amended at concrete inputs: on the all-valid list with
globs "a" and "b" both patterns are examined, and on the list with the
single glob "!a" the call fails with `invalidPattern` and no output. -/
theorem C6_amended_failfast_witness :
    check_globs_examined ["a", "b"] = (["a", "b"] : List String).length ∧
    rerun_except (some "/r") (fun _ => true) (fun _ => true) (fun _ _ => []) ["!a"] =
      .completed (.error .invalidPattern) [] :=
  ⟨(C6_amended_failfast ["a", "b"]).1 (by decide),
    (C6_amended_failfast ["!a"]).2 ⟨"!a", by simp, by decide⟩
      (some "/r") (fun _ => true) (fun _ => true) (fun _ _ => [])⟩

/-- C7: an `invalidPattern` failure is atomic and precedes all filesystem
work: when some glob begins with the negation marker, the call returns
the `invalidPattern` error with no output, and the result does not depend
on the walker at all (so no traversal result is ever consulted), nor on
the environment or the glob compiler. -/
theorem C7_invalid_atomic (globs : List String) (g : String)
    (hmem : g ∈ globs) (hbang : starts_with_bang g = true)
    (env env2 : Option String) (compile_ok compile_ok2 : String → Bool)
    (build_ok build_ok2 : List String → Bool)
    (walk walk2 : String → List String → List (Except String DirEntry)) :
    rerun_except env compile_ok build_ok walk globs =
      .completed (.error .invalidPattern) []
    ∧ rerun_except env compile_ok build_ok walk globs =
      rerun_except env2 compile_ok2 build_ok2 walk2 globs := by
  have h1 := rerun_except_invalid globs ⟨g, hmem, hbang⟩ env compile_ok build_ok walk
  have h2 := rerun_except_invalid globs ⟨g, hmem, hbang⟩ env2 compile_ok2 build_ok2 walk2
  exact ⟨h1, h1.trans h2.symm⟩

/-- Witness for C7 at a concrete input: with the single glob "!x", a
populated walker and an unset environment, the call still returns the
`invalidPattern` error with no output and agrees with the call under a
different walker. -/
theorem C7_invalid_atomic_witness :
    rerun_except none (fun _ => true) (fun _ => true)
        (fun _ _ => [Except.ok ⟨false, some "/r/a", ["a"]⟩]) ["!x"] =
      .completed (.error .invalidPattern) []
    ∧ rerun_except none (fun _ => true) (fun _ => true)
        (fun _ _ => [Except.ok ⟨false, some "/r/a", ["a"]⟩]) ["!x"] =
      rerun_except (some "/r") (fun _ => false) (fun _ => false) (fun _ _ => []) ["!x"] :=
  C7_invalid_atomic ["!x"] "!x" (by simp) (by decide)
    none (some "/r") (fun _ => true) (fun _ => false) (fun _ => true) (fun _ => false)
    (fun _ _ => [Except.ok ⟨false, some "/r/a", ["a"]⟩]) (fun _ _ => [])

/-- C9: when the environment variable is unset (or not valid Unicode) and
the globs pass validation, `rerun_except` panics from the unwrap instead
of returning an error value. -/
theorem C9_env_unset_panics (compile_ok : String → Bool)
    (build_ok : List String → Bool)
    (walk : String → List String → List (Except String DirEntry))
    (globs : List String) (hok : check_globs globs = .ok ()) :
    rerun_except none compile_ok build_ok walk globs = .panicked := by
  simp [rerun_except, hok]

/-- Witness for C9 at a concrete input: with the single valid glob "a"
and the environment variable unset, the call panics. -/
theorem C9_env_unset_panics_witness :
    rerun_except none (fun _ => true) (fun _ => true) (fun _ _ => []) ["a"] = .panicked :=
  C9_env_unset_panics (fun _ => true) (fun _ => true) (fun _ _ => []) ["a"] (by decide)

/-- String concatenation cancels on the left. -/
theorem append_left_cancel_str (p s t : String) (h : p ++ s = p ++ t) : s = t := by
  have hd : p.data ++ s.data = p.data ++ t.data := by
    have h2 := congrArg String.data h
    simpa using h2
  have h3 := List.append_cancel_left hd
  cases s
  cases t
  exact congrArg String.mk (by simpa using h3)

/-- Filtering the walker results by `result_is_ok` twice is the same as
filtering once. -/
theorem filter_ok_idem (l : List (Except String DirEntry)) :
    (l.filter result_is_ok).filter result_is_ok = l.filter result_is_ok := by
  rw [List.filter_eq_self]
  intro a ha
  exact (List.mem_filter.mp ha).2

/-- An entry whose path has no string form contributes nothing to the
walk loop: removing it from the processed list changes neither the
outcome nor the emitted lines. -/
theorem walk_loop_drop_none (mdir : String) (ent : DirEntry)
    (hs : ent.to_str = none) (l1 l2 : List (Except String DirEntry)) :
    walk_loop mdir (l1 ++ Except.ok ent :: l2) = walk_loop mdir (l1 ++ l2) := by
  induction l1 with
  | nil =>
    simp only [List.nil_append]
    by_cases hd : ent.is_dir
    · simp [walk_loop, hd]
    · simp [walk_loop, hd, hs]
  | cons e rest ih =>
    cases e with
    | error msg => simp [walk_loop]
    | ok w =>
      by_cases hd : w.is_dir
      · simp [walk_loop, hd, ih]
      · cases hw : w.to_str with
        | none => simp [walk_loop, hd, hw, ih]
        | some s =>
          by_cases hm : s = mdir
          · simp [walk_loop, hd, hw, hm, ih]
          · simp [walk_loop, hd, hw, hm, ih]

/-- Characterization of a successful completed run: the environment
variable was set, validation succeeded, every negated glob compiled, the
override set built, and the output is the walk loop applied to the
filtered walker results under the negated rules. -/
theorem rerun_except_ok_out (env : Option String) (compile_ok : String → Bool)
    (build_ok : List String → Bool)
    (walk : String → List String → List (Except String DirEntry))
    (globs : List String) (out : List String)
    (hrun : rerun_except env compile_ok build_ok walk globs = .completed (.ok ()) out) :
    ∃ mdir, env = some mdir ∧ check_globs globs = .ok () ∧
      add_overrides compile_ok globs = .ok (globs.map (fun g => "!" ++ g)) ∧
      build_ok (globs.map (fun g => "!" ++ g)) = true ∧
      out = (walk_loop mdir
        ((walk mdir (globs.map (fun g => "!" ++ g))).filter result_is_ok)).2 := by
  unfold rerun_except at hrun
  cases hck : check_globs globs with
  | error e => rw [hck] at hrun; simp at hrun
  | ok u =>
    rw [hck] at hrun
    cases env with
    | none => simp at hrun
    | some mdir =>
      simp only at hrun
      cases hadd : add_overrides compile_ok globs with
      | error e => rw [hadd] at hrun; simp at hrun
      | ok rules =>
        rw [hadd] at hrun
        dsimp only at hrun
        have hrules := add_overrides_ok_eq compile_ok globs rules hadd
        subst hrules
        cases hb : build_ok (globs.map (fun g => "!" ++ g)) with
        | false =>
          rw [hb] at hrun
          rw [if_neg (by simp)] at hrun
          simp at hrun
        | true =>
          rw [hb] at hrun
          rw [if_pos rfl] at hrun
          have hout := ((RunResult.completed.injEq _ _ _ _).mp hrun).2
          cases u
          exact ⟨mdir, rfl, rfl, rfl, rfl, hout.symm⟩

/-- C2: error propagation is fail-closed for rule construction and
fail-open for traversal: a validation failure, a glob the engine cannot
compile, or an override set that fails to build, each makes the whole
call return that error with no output; once rules are in place the call
always completes successfully whatever traversal errors the walker
yields, and dropping the error results from the walker output changes
nothing. -/
theorem C2_propagation (env : Option String) (compile_ok : String → Bool)
    (build_ok : List String → Bool)
    (walk : String → List String → List (Except String DirEntry))
    (globs : List String) :
    (check_globs globs = .error .invalidPattern →
      rerun_except env compile_ok build_ok walk globs =
        .completed (.error .invalidPattern) [])
    ∧ (∀ mdir, env = some mdir → check_globs globs = .ok () →
        add_overrides compile_ok globs = .error .invalidOverride →
        rerun_except env compile_ok build_ok walk globs =
          .completed (.error .invalidOverride) [])
    ∧ (∀ mdir rules, env = some mdir → check_globs globs = .ok () →
        add_overrides compile_ok globs = .ok rules → build_ok rules = false →
        rerun_except env compile_ok build_ok walk globs =
          .completed (.error .invalidOverride) [])
    ∧ (∀ mdir rules, env = some mdir → check_globs globs = .ok () →
        add_overrides compile_ok globs = .ok rules → build_ok rules = true →
        ∃ out, rerun_except env compile_ok build_ok walk globs =
          .completed (.ok ()) out)
    ∧ rerun_except env compile_ok build_ok walk globs =
        rerun_except env compile_ok build_ok
          (fun m r => (walk m r).filter result_is_ok) globs := by
  refine ⟨?_, ?_, ?_, ?_, ?_⟩
  · intro h
    simp [rerun_except, h]
  · intro mdir henv hok hadd
    subst henv
    simp [rerun_except, hok, hadd]
  · intro mdir rules henv hok hadd hb
    subst henv
    simp [rerun_except, hok, hadd, hb]
  · intro mdir rules henv hok hadd hb
    subst henv
    refine ⟨(walk_loop mdir ((walk mdir rules).filter result_is_ok)).2, ?_⟩
    have hloop : (walk_loop mdir ((walk mdir rules).filter result_is_ok)).1 = .ok () :=
      walk_loop_ok mdir _ (fun e he => (List.mem_filter.mp he).2)
    simp [rerun_except, hok, hadd, hb, hloop]
  · unfold rerun_except
    cases hck : check_globs globs with
    | error e => rfl
    | ok u =>
      cases env with
      | none => rfl
      | some mdir =>
        simp only
        cases hadd : add_overrides compile_ok globs with
        | error e => rfl
        | ok rules =>
          simp only
          cases hb : build_ok rules with
          | false => simp
          | true => simp [filter_ok_idem]

/-- Witness for C2 at concrete inputs: with an error result and a file
entry in the walker output, a negated glob fails validation, a rejected
rule fails compilation, a good glob completes successfully, and the
error result in the walker output is immaterial. -/
theorem C2_propagation_witness :
    rerun_except (some "/r") (fun _ => true) (fun _ => true)
        (fun _ _ => [Except.error "boom",
          Except.ok (DirEntry.mk false (some "/r/a") ["a"])]) ["!a"] =
      .completed (.error .invalidPattern) []
    ∧ rerun_except (some "/r") (fun _ => false) (fun _ => true)
        (fun _ _ => [Except.error "boom",
          Except.ok (DirEntry.mk false (some "/r/a") ["a"])]) ["a"] =
      .completed (.error .invalidOverride) []
    ∧ (∃ out, rerun_except (some "/r") (fun _ => true) (fun _ => true)
        (fun _ _ => [Except.error "boom",
          Except.ok (DirEntry.mk false (some "/r/a") ["a"])]) ["a"] =
      .completed (.ok ()) out)
    ∧ rerun_except (some "/r") (fun _ => true) (fun _ => true)
        (fun _ _ => [Except.error "boom",
          Except.ok (DirEntry.mk false (some "/r/a") ["a"])]) ["a"] =
      rerun_except (some "/r") (fun _ => true) (fun _ => true)
        (fun m r => ((fun (_ : String) (_ : List String) =>
          [Except.error "boom",
            Except.ok (DirEntry.mk false (some "/r/a") ["a"])]) m r).filter
              result_is_ok) ["a"] :=
  ⟨(C2_propagation (some "/r") (fun _ => true) (fun _ => true)
      (fun _ _ => [Except.error "boom",
        Except.ok (DirEntry.mk false (some "/r/a") ["a"])]) ["!a"]).1 (by decide),
    (C2_propagation (some "/r") (fun _ => false) (fun _ => true)
      (fun _ _ => [Except.error "boom",
        Except.ok (DirEntry.mk false (some "/r/a") ["a"])]) ["a"]).2.1 "/r" rfl
      (by decide) (by decide),
    (C2_propagation (some "/r") (fun _ => true) (fun _ => true)
      (fun _ _ => [Except.error "boom",
        Except.ok (DirEntry.mk false (some "/r/a") ["a"])]) ["a"]).2.2.2.1 "/r" ["!a"]
      rfl (by decide) (by decide) rfl,
    (C2_propagation (some "/r") (fun _ => true) (fun _ => true)
      (fun _ _ => [Except.error "boom",
        Except.ok (DirEntry.mk false (some "/r/a") ["a"])]) ["a"]).2.2.2.2⟩

/-- C3: every validated glob is registered with the matching engine
wrapped in a negation: when every negated glob compiles, the rule list
handed to the engine is exactly the globs each with the negation marker
prepended, and the walker of a completed run is invoked with exactly
that rule list. -/
theorem C3_negation_wrap (compile_ok : String → Bool) (globs : List String)
    (hc : ∀ g ∈ globs, compile_ok ("!" ++ g) = true)
    (build_ok : List String → Bool)
    (walk : String → List String → List (Except String DirEntry))
    (mdir : String) (hok : check_globs globs = .ok ())
    (hb : build_ok (globs.map (fun g => "!" ++ g)) = true) :
    add_overrides compile_ok globs = .ok (globs.map (fun g => "!" ++ g))
    ∧ rerun_except (some mdir) compile_ok build_ok walk globs =
        .completed
          (walk_loop mdir
            ((walk mdir (globs.map (fun g => "!" ++ g))).filter result_is_ok)).1
          (walk_loop mdir
            ((walk mdir (globs.map (fun g => "!" ++ g))).filter result_is_ok)).2 := by
  have hadd := add_overrides_all_ok compile_ok globs hc
  refine ⟨hadd, ?_⟩
  simp [rerun_except, hok, hadd, hb]

/-- Witness for C3 at concrete inputs: the globs "a" and "b" are
registered as the rules "!a" and "!b", and the walker sees exactly
those rules. -/
theorem C3_negation_wrap_witness :
    add_overrides (fun _ => true) ["a", "b"] = .ok ["!a", "!b"]
    ∧ rerun_except (some "/r") (fun _ => true) (fun _ => true)
        (fun _ rules => [Except.ok (DirEntry.mk false (some (String.intercalate "," rules)) [])])
        ["a", "b"] =
      .completed
        (walk_loop "/r"
          (((fun (_ : String) (rules : List String) =>
            [Except.ok (DirEntry.mk false (some (String.intercalate "," rules)) [])]) "/r"
              ((["a", "b"] : List String).map (fun g => "!" ++ g))).filter
                result_is_ok)).1
        (walk_loop "/r"
          (((fun (_ : String) (rules : List String) =>
            [Except.ok (DirEntry.mk false (some (String.intercalate "," rules)) [])]) "/r"
              ((["a", "b"] : List String).map (fun g => "!" ++ g))).filter
                result_is_ok)).2 := by
  have h := C3_negation_wrap (fun _ => true) ["a", "b"] (by decide)
    (fun _ => true)
    (fun _ rules => [Except.ok (DirEntry.mk false (some (String.intercalate "," rules)) [])])
    "/r" (by decide) rfl
  exact ⟨by rw [h.1]; decide, h.2⟩

/-- C4: no directory path is ever emitted: every line of the output of a
successful run comes from a walker entry that is not a directory. -/
theorem C4_no_directory (compile_ok : String → Bool)
    (build_ok : List String → Bool)
    (walk : String → List String → List (Except String DirEntry))
    (globs : List String) (mdir : String) (out : List String)
    (hrun : rerun_except (some mdir) compile_ok build_ok walk globs =
      .completed (.ok ()) out) :
    ∀ line ∈ out, ∃ ent,
      Except.ok ent ∈ walk mdir (globs.map (fun g => "!" ++ g)) ∧
      ent.is_dir = false ∧
      ∃ s, ent.to_str = some s ∧ s ≠ mdir ∧
        line = "cargo:rerun-if-changed=" ++ s := by
  intro line hline
  obtain ⟨m, hm, _, _, _, hout⟩ :=
    rerun_except_ok_out (some mdir) compile_ok build_ok walk globs out hrun
  obtain rfl : mdir = m := by injection hm
  rw [hout] at hline
  obtain ⟨ent, hmem, hdir, s, hs, hsm, hl⟩ := walk_loop_mem mdir _ line hline
  exact ⟨ent, List.mem_of_mem_filter hmem, hdir, s, hs, hsm, hl⟩

/-- Witness for C4 at a concrete input: a walker yielding a directory
entry and a file entry makes a successful run whose single output line
comes from the file entry. -/
theorem C4_no_directory_witness :
    ∃ ent, Except.ok ent ∈
        ([Except.ok (DirEntry.mk true (some "/r/d") ["d"]),
          Except.ok (DirEntry.mk false (some "/r/a") ["a"])] :
            List (Except String DirEntry)) ∧
      ent.is_dir = false ∧
      ∃ s, ent.to_str = some s ∧ s ≠ "/r" ∧
        "cargo:rerun-if-changed=/r/a" = "cargo:rerun-if-changed=" ++ s := by
  have h := C4_no_directory (fun _ => true) (fun _ => true)
    (fun _ _ => [Except.ok (DirEntry.mk true (some "/r/d") ["d"]),
      Except.ok (DirEntry.mk false (some "/r/a") ["a"])]) [] "/r"
    ["cargo:rerun-if-changed=/r/a"] (by decide)
    "cargo:rerun-if-changed=/r/a" (by simp)
  exact h

/-- C5: the root path itself is never emitted: the output of a
successful run never contains the directive line for the root
directory path. -/
theorem C5_root_not_emitted (compile_ok : String → Bool)
    (build_ok : List String → Bool)
    (walk : String → List String → List (Except String DirEntry))
    (globs : List String) (mdir : String) (out : List String)
    (hrun : rerun_except (some mdir) compile_ok build_ok walk globs =
      .completed (.ok ()) out) :
    ("cargo:rerun-if-changed=" ++ mdir) ∉ out := by
  intro hmem
  obtain ⟨m, hm, _, _, _, hout⟩ :=
    rerun_except_ok_out (some mdir) compile_ok build_ok walk globs out hrun
  obtain rfl : mdir = m := by injection hm
  rw [hout] at hmem
  obtain ⟨ent, _, _, s, _, hsm, hl⟩ := walk_loop_mem mdir _ _ hmem
  exact hsm (append_left_cancel_str "cargo:rerun-if-changed=" s mdir hl.symm)

/-- Witness for C5 at a concrete input: with the root path as the string
of a walker entry, the root directive line is absent from the output of
the successful run. -/
theorem C5_root_not_emitted_witness :
    ("cargo:rerun-if-changed=" ++ "/r") ∉
      (["cargo:rerun-if-changed=/r/a"] : List String) :=
  C5_root_not_emitted (fun _ => true) (fun _ => true)
    (fun _ _ => [Except.ok (DirEntry.mk false (some "/r") []),
      Except.ok (DirEntry.mk false (some "/r/a") ["a"])]) [] "/r"
    ["cargo:rerun-if-changed=/r/a"] (by decide)

/-- C8: a traversal entry whose path has no lossless string form is
silently dropped: removing it from the walker results changes neither
the outcome nor the output of the call, whatever the other results. -/
theorem C8_lossless_drop (env : Option String) (compile_ok : String → Bool)
    (build_ok : List String → Bool)
    (l1 l2 : List (Except String DirEntry)) (ent : DirEntry)
    (globs : List String) (hs : ent.to_str = none) :
    rerun_except env compile_ok build_ok
        (fun _ _ => l1 ++ Except.ok ent :: l2) globs =
      rerun_except env compile_ok build_ok (fun _ _ => l1 ++ l2) globs := by
  unfold rerun_except
  cases hck : check_globs globs with
  | error e => rfl
  | ok u =>
    cases env with
    | none => rfl
    | some mdir =>
      simp only
      cases hadd : add_overrides compile_ok globs with
      | error e => rfl
      | ok rules =>
        simp only
        cases hb : build_ok rules with
        | false => simp
        | true =>
          have hfil : (l1 ++ Except.ok ent :: l2).filter result_is_ok =
              l1.filter result_is_ok ++ Except.ok ent :: l2.filter result_is_ok := by
            rw [List.filter_append, List.filter_cons_of_pos]
            rfl
          have hfil2 : (l1 ++ l2).filter result_is_ok =
              l1.filter result_is_ok ++ l2.filter result_is_ok :=
            List.filter_append _ _
          simp only [hfil, hfil2,
            walk_loop_drop_none mdir ent hs (l1.filter result_is_ok)
              (l2.filter result_is_ok)]

/-- Witness for C8 at a concrete input: dropping an entry without a
string form from between two file entries leaves the call unchanged. -/
theorem C8_lossless_drop_witness :
    rerun_except (some "/r") (fun _ => true) (fun _ => true)
        (fun _ _ => [Except.ok (DirEntry.mk false (some "/r/a") ["a"])] ++
          Except.ok (DirEntry.mk false none ["b"]) ::
            [Except.ok (DirEntry.mk false (some "/r/c") ["c"])]) [] =
      rerun_except (some "/r") (fun _ => true) (fun _ => true)
        (fun _ _ => [Except.ok (DirEntry.mk false (some "/r/a") ["a"])] ++
          [Except.ok (DirEntry.mk false (some "/r/c") ["c"])]) [] :=
  C8_lossless_drop (some "/r") (fun _ => true) (fun _ => true)
    [Except.ok (DirEntry.mk false (some "/r/a") ["a"])]
    [Except.ok (DirEntry.mk false (some "/r/c") ["c"])]
    (DirEntry.mk false none ["b"]) [] rfl

/-- C10: hidden entries are excluded: under a walker with the default
hidden-entry filtering (which the source never disables), every line of
the output of a successful run comes from an entry none of whose name
components begins with a dot. -/
theorem C10_hidden_excluded (compile_ok : String → Bool)
    (build_ok : List String → Bool)
    (walk : String → List String → List (Except String DirEntry))
    (globs : List String) (mdir : String) (out : List String)
    (hwalk : hidden_filtering walk)
    (hrun : rerun_except (some mdir) compile_ok build_ok walk globs =
      .completed (.ok ()) out) :
    ∀ line ∈ out, ∃ ent,
      Except.ok ent ∈ walk mdir (globs.map (fun g => "!" ++ g)) ∧
      (∀ c ∈ ent.components, starts_with_dot c = false) ∧
      ent.is_dir = false ∧
      ∃ s, ent.to_str = some s ∧ line = "cargo:rerun-if-changed=" ++ s := by
  intro line hline
  obtain ⟨m, hm, _, _, _, hout⟩ :=
    rerun_except_ok_out (some mdir) compile_ok build_ok walk globs out hrun
  obtain rfl : mdir = m := by injection hm
  rw [hout] at hline
  obtain ⟨ent, hmem, hdir, s, hsf, _, hl⟩ := walk_loop_mem mdir _ line hline
  have hmem2 := List.mem_of_mem_filter hmem
  exact ⟨ent, hmem2, hwalk mdir _ ent hmem2, hdir, s, hsf, hl⟩

/-- Witness for C10 at a concrete input: a hidden-filtering walker
yielding one visible file entry gives a successful run whose single
output line comes from that dot-free entry. -/
theorem C10_hidden_excluded_witness :
    ∃ ent, Except.ok ent ∈
        ([Except.ok (DirEntry.mk false (some "/r/a") ["a"])] :
          List (Except String DirEntry)) ∧
      (∀ c ∈ ent.components, starts_with_dot c = false) ∧
      ent.is_dir = false ∧
      ∃ s, ent.to_str = some s ∧
        "cargo:rerun-if-changed=/r/a" = "cargo:rerun-if-changed=" ++ s := by
  have hw : hidden_filtering
      (fun _ _ => [Except.ok (DirEntry.mk false (some "/r/a") ["a"])]) := by
    intro mdir rules ent h c hc
    rw [List.mem_singleton] at h
    injection h with h
    subst h
    simp only [List.mem_singleton] at hc
    subst hc
    decide
  have h := C10_hidden_excluded (fun _ => true) (fun _ => true)
    (fun _ _ => [Except.ok (DirEntry.mk false (some "/r/a") ["a"])]) [] "/r"
    ["cargo:rerun-if-changed=/r/a"] hw (by decide)
    "cargo:rerun-if-changed=/r/a" (by simp)
  exact h
